import Mathlib

/-!
# Shallow embedding of the wordcount-service core

This file embeds the core data model and operations of the Go repository
NivBraz/wordcount-service and proves properties of its word-extraction,
aggregation, ranking, retrying-fetch and error-collection logic.

Conventions of the embedding:
* Go `string` is `String`; Go `len(s)` on a string is `String.utf8ByteSize`
  (Go measures UTF-8 bytes).
* Go maps that are enumerated are represented by association lists
  (`List (String × Nat)`); the enumeration order is the list order, and claims
  about iteration-order independence are stated as permutation invariance.
* `unicode.IsLetter` / `strings.ToLower` are modelled by `Char.isAlpha` /
  `Char.toLower`, which agree with Go on the ASCII inputs used in this
  development.
* Wall-clock time, real HTTP traffic and goroutine scheduling are not
  modelled; the fetch loop is embedded as a function of the per-attempt
  outcomes, and the concurrent pipeline as a function of the per-target
  outcomes, which is faithful because a single goroutine owns the
  frequency table.
-/

namespace WordCountSvc

/-! ### internal/models -/

/-- Embeds `models.WordCount`: a word together with its occurrence count. -/
structure WordCount where
  Word  : String
  Count : Nat
deriving DecidableEq, Repr

/-- Embeds `models.Result`. The `TimeElapsed` statistic is wall-clock time and
is not modelled. -/
structure Result where
  TopWords       : List WordCount
  TotalProcessed : Nat
deriving DecidableEq, Repr

/-! ### pkg/parser -/

/-- Embeds `parser.IsAlphabetic`: true iff every rune of the word is a letter
(`unicode.IsLetter`, modelled by `Char.isAlpha`; they agree on ASCII). -/
def IsAlphabetic (word : String) : Bool :=
  word.data.all (fun r => r.isAlpha)

/-- Embeds `cleanWord`: lowercase the word, then drop every rune that is not a
letter (the final `TrimSpace` is a no-op after the filter). -/
def cleanWord (word : String) : String :=
  String.mk ((word.data.map Char.toLower).filter (fun r => r.isAlpha))

/-- Closes the word being accumulated (if any) while scanning for fields:
the pair holds the finished words in reverse and the current word in reverse. -/
def flushField (st : List String × List Char) : List String :=
  if st.2.isEmpty then st.1 else String.mk st.2.reverse :: st.1

/-- One scanning step of `strings.Fields`: whitespace ends the current word,
any other rune extends it. -/
def fieldsStep (st : List String × List Char) (c : Char) : List String × List Char :=
  if c.isWhitespace then (flushField st, []) else (st.1, c :: st.2)

/-- Embeds `strings.Fields`: split on runs of whitespace, dropping empty
segments. -/
def goFields (s : String) : List String :=
  (flushField (s.data.foldl fieldsStep ([], []))).reverse

/-- Embeds `parser.ParseWords` applied to a document whose HTML parse yields
text nodes containing exactly the document text (a plain-text document with no
markup, as in the repository's own scenario test): the HTML tree traversal is
not modelled, only the per-text-node tokenization `strings.Fields` followed by
`cleanWord`, keeping non-empty results. -/
def parseWordsText (text : String) : List String :=
  ((goFields text).map cleanWord).filter (fun w => w ≠ "")

/-- Embeds the strict comparator passed by `parser.SortWordCounts` to
`sort.Slice`: count descending, word ascending on equal counts. Go string
comparison is bytewise lexicographic, which on UTF-8 strings coincides with
the lexicographic order on the rune sequence, used here. -/
def wcLess (a b : WordCount) : Bool :=
  if a.Count = b.Count then decide (a.Word.data < b.Word.data)
  else decide (b.Count < a.Count)

/-- The reflexive total order induced by the `SortWordCounts` comparator:
`wcLE a b` iff `¬ wcLess b a`, i.e. a comes (weakly) before b in the sorted
output. -/
def wcLE (a b : WordCount) : Prop :=
  b.Count < a.Count ∨ (a.Count = b.Count ∧ a.Word.data ≤ b.Word.data)

instance : DecidableRel wcLE := fun a b => by
  unfold wcLE; infer_instance

instance : IsTotal WordCount wcLE := by
  constructor
  intro a b
  rcases Nat.lt_trichotomy a.Count b.Count with h | h | h
  · exact Or.inr (Or.inl h)
  · rcases le_total a.Word.data b.Word.data with hw | hw
    · exact Or.inl (Or.inr ⟨h, hw⟩)
    · exact Or.inr (Or.inr ⟨h.symm, hw⟩)
  · exact Or.inl (Or.inl h)

instance : IsTrans WordCount wcLE := by
  constructor
  intro a b c hab hbc
  rcases hab with h1 | ⟨h1, w1⟩
  · rcases hbc with h2 | ⟨h2, w2⟩
    · exact Or.inl (h2.trans h1)
    · exact Or.inl (h2 ▸ h1)
  · rcases hbc with h2 | ⟨h2, w2⟩
    · exact Or.inl (h1 ▸ h2)
    · exact Or.inr ⟨h1.trans h2, w1.trans w2⟩

instance : IsAntisymm WordCount wcLE := by
  constructor
  intro a b hab hba
  rcases hab with h1 | ⟨h1, w1⟩
  · rcases hba with h2 | ⟨h2, w2⟩
    · exact absurd (h1.trans h2) (lt_irrefl _)
    · exact absurd h1 (h2 ▸ lt_irrefl _)
  · rcases hba with h2 | ⟨h2, w2⟩
    · exact absurd h2 (h1 ▸ lt_irrefl _)
    · cases a; cases b
      simp only [WordCount.mk.injEq]
      exact ⟨String.ext (le_antisymm w1 w2), h1⟩

/-- Embeds `parser.SortWordCounts`. `sort.Slice` with the `wcLess` comparator
produces a permutation of the input sorted by `wcLE`; since `wcLE` is a total,
transitive and antisymmetric order, that output is unique, so any sorting
algorithm models it; insertion sort is used here. -/
def SortWordCounts (words : List WordCount) : List WordCount :=
  List.insertionSort wcLE words

/-! ### internal/app: aggregation and ranking -/

/-- Embeds `app.isValidWord`: Go `len(word) >= 3` measures the UTF-8 byte
length of the token. -/
def isValidWord (word : String) : Bool :=
  decide (3 ≤ word.utf8ByteSize) && IsAlphabetic word

/-- The validity filter as the specification words it, with the minimum word
length taken from the configuration (`WordProcessing.MinWordLength`); kept
separate from `isValidWord` (the code) so the two can be compared. -/
def specValidWord (minWordLength : Nat) (word : String) : Bool :=
  decide (minWordLength ≤ word.utf8ByteSize) && IsAlphabetic word

/-- Embeds `strings.ToLower`, rune by rune (`Char.toLower` agrees with Go on
the ASCII inputs used here). -/
def goToLower (s : String) : String :=
  String.mk (s.data.map Char.toLower)

/-- Embeds `wordbank.WordBank` membership: the bank is the list of words passed
to `Add` (which lowercases on insertion) and `Contains` lowercases the query. -/
def wbContains (bank : List String) (word : String) : Bool :=
  (bank.map goToLower).contains (goToLower word)

/-- Embeds the Go map update `frequencies[word]++` on the association-list
representation: bump the existing entry, or insert the word with count 1. -/
def increment : List (String × Nat) → String → List (String × Nat)
  | [], w => [(w, 1)]
  | p :: rest, w =>
      if p.1 = w then (p.1, p.2 + 1) :: rest else p :: increment rest w

/-- The count stored for a word, 0 when the word is absent
(Go map read with zero value). -/
def lookupCount (m : List (String × Nat)) (w : String) : Nat :=
  match m with
  | [] => 0
  | p :: rest => if p.1 = w then p.2 else lookupCount rest w

/-- Embeds one iteration of the aggregation goroutine of `app.Run`
(`for word := range wordChan`): count the token iff it passes `isValidWord`
and the word-bank membership test, otherwise leave the table unchanged. -/
def processToken (bank : List String) (m : List (String × Nat)) (w : String) :
    List (String × Nat) :=
  if isValidWord w && wbContains bank w then increment m w else m

/-- The frequency table after the aggregation goroutine has consumed the given
token stream, starting from the empty table. -/
def aggregate (bank : List String) (tokens : List String) : List (String × Nat) :=
  tokens.foldl (processToken bank) []

/-- The truncation at the end of `app.getTopWords`: `words[:n]` when more than
`n` entries are present, the whole slice otherwise. -/
def topSlice (n : Nat) (words : List WordCount) : List WordCount :=
  if n < words.length then words.take n else words

/-- Embeds `app.getTopWords`: enumerate the frequency table, sort with
`SortWordCounts`, and return the first `n` entries. -/
def getTopWords (frequencies : List (String × Nat)) (n : Nat) : List WordCount :=
  topSlice n (SortWordCounts (frequencies.map (fun p => { Word := p.1, Count := p.2 })))

/-! ### internal/config and internal/app: run orchestration -/

/-- Embeds the fields of `config.Config` that the claims mention (rate limit,
concurrency, URLs, output size, minimum word length). -/
structure Config where
  RequestsPerSecond : Int
  Burst             : Int
  Concurrency       : Int
  TopWordsCount     : Nat
  MinWordLength     : Nat
  WordBankURL       : String
  ArticleURLs       : List String
deriving DecidableEq, Repr

/-- Embeds `app.validateConfig`: positive rate limit and concurrency, at least
one article URL, non-empty word-bank URL. -/
def validateConfig (cfg : Config) : Bool :=
  decide (0 < cfg.RequestsPerSecond) && decide (0 < cfg.Concurrency) &&
    decide (cfg.ArticleURLs ≠ []) && decide (cfg.WordBankURL ≠ "")

/-- Embeds the ranking call of `app.Run` (`getTopWords(frequencies, 10)`): the
truncation bound is the literal 10, regardless of the configuration. -/
def runTopWords (_cfg : Config) (frequencies : List (String × Nat)) : List WordCount :=
  getTopWords frequencies 10

/-- The outcome of one fetch-and-extract task of `app.Run`: either
`processArticle` returned an error (fetch or parse failure), or it succeeded
and emitted the extracted token list into the word channel. -/
inductive ArticleOutcome where
  | failure
  | success (tokens : List String)
deriving DecidableEq, Repr

/-- Whether the task for this target reported an error to `errChan`. -/
def isFailure : ArticleOutcome → Bool
  | .failure => true
  | .success _ => false

/-- The token stream reaching the aggregation goroutine: every successful
target's tokens, failed targets contributing nothing. One fixed interleaving
(target submission order) is used; `getTopWords_enumeration_invariant` below
shows the ranking does not depend on the resulting table enumeration. -/
def successTokens : List ArticleOutcome → List String
  | [] => []
  | .failure :: rest => successTokens rest
  | .success ts :: rest => ts ++ successTokens rest

/-- Number of errors collected from `errChan` (one per failed target). -/
def errorCount (outs : List ArticleOutcome) : Nat :=
  (outs.filter isFailure).length

/-- Number of targets whose fetch-and-extract completed successfully. -/
def successCount (outs : List ArticleOutcome) : Nat :=
  (outs.filter (fun o => !(isFailure o))).length

/-- The `models.Result` value `app.Run` builds: `TopWords` from
`getTopWords(frequencies, 10)` and `TotalProcessed = len(frequencies)`. -/
def runResult (bank : List String) (outs : List ArticleOutcome) : Result :=
  { TopWords := getTopWords (aggregate bank (successTokens outs)) 10,
    TotalProcessed := (aggregate bank (successTokens outs)).length }

/-- The error value `app.Run` returns: `encountered %d errors during
processing` (carrying the error count) when any target failed, nil
otherwise. -/
def runError (outs : List ArticleOutcome) : Option Nat :=
  if 0 < errorCount outs then some (errorCount outs) else none

/-- Embeds `app.Run` as a function of the per-target outcomes: aggregate the
successful targets' tokens into the frequency table, then return the assembled
result together with the (possibly nil) run error. -/
def Run (bank : List String) (outs : List ArticleOutcome) : Result × Option Nat :=
  (runResult bank outs, runError outs)

/-! ### pkg/fetcher: retry loop and backoff -/

/-- The classified outcome of one attempt of the proxy-rotating
`fetcher.Fetch` (the revision `app.New` instantiates):
* `transportUpdateErr`: `updateTransport` failed — `continue` without touching
  `lastErr`;
* `doErrRetryable`: `client.Do` failed with an error whose text contains EOF /
  timeout / connection refused / no such host — `continue` without touching
  `lastErr`;
* `doErrOther`: any other `client.Do` error — `lastErr` is recorded;
* `ok`: status 200 and the body was read — return it;
* `readBodyErr`: status 200 but reading the body failed — `lastErr` recorded;
* `rateLimited`: status 429 or 999;
* `otherStatus`: any other status code.
Context cancellation and rate-limiter failure (which return early) are outside
this model. -/
inductive AttemptOutcome where
  | transportUpdateErr
  | doErrRetryable
  | doErrOther
  | ok (body : List Nat)
  | readBodyErr
  | rateLimited (code : Nat)
  | otherStatus (code : Nat)
deriving DecidableEq, Repr

/-- The error values `fetcher.Fetch` builds (identified by their format
string). -/
inductive FetchErr where
  | requestError (attempt : Nat)
  | readBodyError
  | rateLimitExceededAfter (attempts : Nat)
  | rateLimitRetrying (code : Nat)
  | unexpectedStatusAfter (code : Nat) (attempts : Nat)
  | unexpectedStatusRetrying (code : Nat)
deriving DecidableEq, Repr

/-- The retry loop of the proxy-rotating `fetcher.Fetch`, one list element per
attempt (`attempt` is the 0-based loop counter, compared against
`maxRetries`); when the loop exhausts its attempts it falls through to
`return nil, lastErr`. -/
def fetchAttempts (maxRetries : Nat) :
    Nat → Option FetchErr → List AttemptOutcome → Option (List Nat) × Option FetchErr
  | _, lastErr, [] => (none, lastErr)
  | attempt, lastErr, o :: rest =>
    match o with
    | .transportUpdateErr => fetchAttempts maxRetries (attempt + 1) lastErr rest
    | .doErrRetryable => fetchAttempts maxRetries (attempt + 1) lastErr rest
    | .doErrOther =>
        fetchAttempts maxRetries (attempt + 1) (some (.requestError (attempt + 1))) rest
    | .ok body => (some body, none)
    | .readBodyErr =>
        fetchAttempts maxRetries (attempt + 1) (some .readBodyError) rest
    | .rateLimited code =>
        if attempt = maxRetries then (none, some (.rateLimitExceededAfter (attempt + 1)))
        else fetchAttempts maxRetries (attempt + 1) (some (.rateLimitRetrying code)) rest
    | .otherStatus code =>
        if attempt = maxRetries then (none, some (.unexpectedStatusAfter code (attempt + 1)))
        else fetchAttempts maxRetries (attempt + 1) (some (.unexpectedStatusRetrying code)) rest

/-- Embeds `fetcher.Fetch` (proxy revision) as a function of the classified
outcome of each of its `maxRetries + 1` attempts. -/
def Fetch (maxRetries : Nat) (outcomes : List AttemptOutcome) :
    Option (List Nat) × Option FetchErr :=
  fetchAttempts maxRetries 0 none (outcomes.take (maxRetries + 1))

/-- Embeds `fetcher.calculateBackoff` over exact rationals:
`min(initialBackoff * 2^attempt, maxBackoff)` scaled by the jitter factor
`0.8 + u * 0.4`, where `u` models the `rand.Float64()` draw in `[0, 1)`. -/
def calculateBackoff (initialBackoff maxBackoff : ℚ) (attempt : Nat) (u : ℚ) : ℚ :=
  min (initialBackoff * 2 ^ attempt) maxBackoff * (4 / 5 + u * (2 / 5))

/-! ### Concrete inputs used by the claim theorems -/

/-- A configuration that passes `validateConfig` and asks for a top-5 output. -/
def cfgFive : Config :=
  { RequestsPerSecond := 5, Burst := 10, Concurrency := 4, TopWordsCount := 5,
    MinWordLength := 3, WordBankURL := "http://wb", ArticleURLs := ["u"] }

/-- A final frequency table holding 11 distinct words. -/
def freqEleven : List (String × Nat) :=
  [("a", 1), ("b", 1), ("c", 1), ("d", 1), ("e", 1), ("f", 1), ("g", 1),
    ("h", 1), ("i", 1), ("j", 1), ("k", 1)]

/-- The single-document text of the repository's own scenario test. -/
def scenarioText : String :=
  "This is a test article with some common words. The test contains multiple test words that should be counted. Some words appear more frequently than others in this test."

/-- The scenario vocabulary. -/
def scenarioBank : List String := ["test", "word", "bank", "common"]

/-! ### Helper lemmas -/

/-- Sorting with the `SortWordCounts` comparator is invariant under
permutations of the input: the comparator is a total, transitive and
antisymmetric order, so the sorted list is unique. -/
theorem sortWordCounts_perm_inv (l1 l2 : List WordCount) (h : l1.Perm l2) :
    SortWordCounts l1 = SortWordCounts l2 :=
  List.eq_of_perm_of_sorted
    (((List.perm_insertionSort wcLE l1).trans h).trans
      (List.perm_insertionSort wcLE l2).symm)
    (List.sorted_insertionSort wcLE l1) (List.sorted_insertionSort wcLE l2)

/-- Dropping the failed targets does not change the token stream reaching the
aggregator: failed targets emit no tokens. -/
theorem successTokens_filter_eq (outs : List ArticleOutcome) :
    successTokens (outs.filter (fun o => !(isFailure o))) = successTokens outs := by
  induction outs with
  | nil => rfl
  | cons o rest ih =>
    cases o with
    | failure => simpa [successTokens, isFailure] using ih
    | success ts => simpa [successTokens, isFailure] using ih

/-- After dropping the failed targets no errors remain. -/
theorem errorCount_filter_eq (outs : List ArticleOutcome) :
    errorCount (outs.filter (fun o => !(isFailure o))) = 0 := by
  induction outs with
  | nil => rfl
  | cons o rest ih =>
    cases o with
    | failure => simpa [errorCount, isFailure] using ih
    | success ts => simpa [errorCount, isFailure] using ih

/-! ### Claim theorems -/

/-- C5: the ranking step is a deterministic function of the final frequency
table: any two enumerations (iteration orders) of the same word-to-count
mapping — and in particular two runs over the same enumeration — produce
identical output. -/
theorem getTopWords_enumeration_invariant (n : Nat)
    (l1 l2 : List (String × Nat)) (h : l1.Perm l2) :
    getTopWords l1 n = getTopWords l2 n := by
  unfold getTopWords
  rw [sortWordCounts_perm_inv (l1.map (fun p => { Word := p.1, Count := p.2 }))
    (l2.map (fun p => { Word := p.1, Count := p.2 }))
    (h.map (fun p => ({ Word := p.1, Count := p.2 } : WordCount)))]

/-- Witness for C5 at a concrete pair of enumerations of the same mapping. -/
theorem getTopWords_enumeration_invariant_witness :
    ([(("a" : String), 2), ("b", 1)] : List (String × Nat)).Perm
        [(("b" : String), 1), ("a", 2)] ∧
      getTopWords [(("a" : String), 2), ("b", 1)] 10 =
        getTopWords [(("b" : String), 1), ("a", 2)] 10 :=
  ⟨by decide,
    getTopWords_enumeration_invariant 10 [("a", 2), ("b", 1)] [("b", 1), ("a", 2)]
      (by decide)⟩

/-- C1: evaluation of the code at the failing input: with a valid configuration
whose `Output.TopWordsCount` is 5 and a final frequency table of 11 words, the
ranking call of `app.Run` (which passes the literal 10, not the configured
value) returns 10 entries, exceeding the configured topN; the returned slice is
nevertheless sorted by count descending, word ascending on ties. -/
theorem run_topn_hardcoded :
    validateConfig cfgFive = true ∧ cfgFive.TopWordsCount = 5 ∧
      (runTopWords cfgFive freqEleven).length = 10 ∧
      ¬ (runTopWords cfgFive freqEleven).length ≤ cfgFive.TopWordsCount ∧
      (runTopWords cfgFive freqEleven).Pairwise wcLE := by
  refine ⟨by decide, by decide, by decide, by decide, ?_⟩
  decide

/-- C2: evaluation of the code at the failing input: with `maxRetries = 3`
(the default `app.New` ends up with) and every one of the 4 attempts failing
with a retryable transport error (timeout / EOF / connection refused), the
proxy-rotating `fetcher.Fetch` returns a nil payload together with a nil
error, because those failure paths `continue` without recording `lastErr`. -/
theorem fetch_all_fail_nil_error :
    Fetch 3 [.doErrRetryable, .doErrRetryable, .doErrRetryable, .doErrRetryable] =
      (none, none) ∧
    ∀ b, AttemptOutcome.ok b ∉
      [AttemptOutcome.doErrRetryable, .doErrRetryable, .doErrRetryable, .doErrRetryable] := by
  constructor
  · decide
  · intro b
    simp [AttemptOutcome.ok.injEq]

/-- C3: evaluation of the code at the failing input: the aggregation step of
`app.Run` counts the vocabulary token "abc" (its `isValidWord` hardcodes the
minimum length 3), although the validity filter as specified, with the
configured minimum word length 4, discards it. -/
theorem aggregator_min_length_hardcoded :
    processToken ["abc"] [] "abc" = [("abc", 1)] ∧
      isValidWord "abc" = true ∧ specValidWord 4 "abc" = false := by
  decide

/-- C6: evaluation of the code at the failing input: a run with exactly one
successfully processed document whose tokens are "test", "test", "word"
reports `TotalProcessed = 2` (the number of distinct words in the frequency
table, `len(frequencies)`), not the number of successfully processed
documents, which is 1. -/
theorem run_totalProcessed_counts_words :
    (Run scenarioBank [ArticleOutcome.success ["test", "test", "word"]]).1.TotalProcessed
        = 2 ∧
      successCount [ArticleOutcome.success ["test", "test", "word"]] = 1 ∧
      (2 : Nat) ≠ 1 := by
  decide

/-- C8: the repository's scenario: with vocabulary test/word/bank/common and
the single scenario document, extraction, filtering, counting and ranking
yield ("test", 4) as the top entry; the word "test" is counted exactly 4
times. -/
theorem scenario_top_word_test :
    (Run scenarioBank [ArticleOutcome.success (parseWordsText scenarioText)]).1.TopWords.head?
        = some { Word := "test", Count := 4 } ∧
      lookupCount (aggregate scenarioBank (parseWordsText scenarioText)) "test" = 4 := by
  decide

/-- C10: the minimum-length check of `app.isValidWord` measures the UTF-8 byte
length (Go `len` on a string), not the character count: it passes exactly when
the byte length is at least 3, so the two-character CJK token "你好" (6 bytes)
passes the length check although it has fewer than 3 characters. -/
theorem min_length_check_is_bytes :
    (∀ w : String, isValidWord w = true ↔ 3 ≤ w.utf8ByteSize ∧ IsAlphabetic w = true) ∧
      3 ≤ "你好".utf8ByteSize ∧ "你好".length = 2 ∧ ¬ 3 ≤ "你好".length := by
  refine ⟨fun w => ?_, by decide, by decide, by decide⟩
  simp [isValidWord]

/-- C7: a run in which one or more targets fail terminally does not abort:
the returned result is exactly the result of the run restricted to the
successful targets (the ranked result is built from their tokens alone), and
the returned run error carries the number of per-target failures collected
from the error channel. -/
theorem run_partial_failure (bank : List String) (outs : List ArticleOutcome)
    (h : 0 < errorCount outs) :
    (Run bank outs).1 = (Run bank (outs.filter (fun o => !(isFailure o)))).1 ∧
      (Run bank outs).2 = some (errorCount outs) ∧
      (Run bank outs).1.TopWords =
        getTopWords (aggregate bank (successTokens outs)) 10 := by
  refine ⟨?_, ?_, rfl⟩
  · show runResult bank outs = runResult bank (outs.filter (fun o => !(isFailure o)))
    unfold runResult
    rw [successTokens_filter_eq]
  · show runError outs = some (errorCount outs)
    unfold runError
    rw [if_pos h]

/-- Witness for C7 at a concrete run with one failing and one succeeding
target. -/
theorem run_partial_failure_witness :
    0 < errorCount [ArticleOutcome.failure, ArticleOutcome.success ["test"]] ∧
      ((Run scenarioBank [ArticleOutcome.failure, ArticleOutcome.success ["test"]]).1 =
          (Run scenarioBank
            ([ArticleOutcome.failure, ArticleOutcome.success ["test"]].filter
              (fun o => !(isFailure o)))).1 ∧
        (Run scenarioBank [ArticleOutcome.failure, ArticleOutcome.success ["test"]]).2 =
          some (errorCount [ArticleOutcome.failure, ArticleOutcome.success ["test"]]) ∧
        (Run scenarioBank [ArticleOutcome.failure, ArticleOutcome.success ["test"]]).1.TopWords =
          getTopWords
            (aggregate scenarioBank
              (successTokens [ArticleOutcome.failure, ArticleOutcome.success ["test"]])) 10) :=
  ⟨by decide,
    run_partial_failure scenarioBank
      [ArticleOutcome.failure, ArticleOutcome.success ["test"]] (by decide)⟩

/-- `increment` keeps every stored count at least 1. -/
theorem increment_counts_pos (m : List (String × Nat)) (w : String)
    (hm : ∀ p ∈ m, 1 ≤ p.2) : ∀ p ∈ increment m w, 1 ≤ p.2 := by
  induction m with
  | nil =>
    intro p hp
    simp only [increment, List.mem_singleton] at hp
    simp [hp]
  | cons q rest ih =>
    intro p hp
    by_cases hq : q.1 = w
    · simp only [increment, if_pos hq, List.mem_cons] at hp
      rcases hp with hp | hp
      · subst hp; exact Nat.le_add_left 1 _
      · exact hm p (List.mem_cons_of_mem q hp)
    · simp only [increment, if_neg hq, List.mem_cons] at hp
      rcases hp with hp | hp
      · exact hm p (hp ▸ List.mem_cons_self q rest)
      · exact ih (fun r hr => hm r (List.mem_cons_of_mem q hr)) p hp

/-- One aggregation step keeps every stored count at least 1. -/
theorem processToken_counts_pos (bank : List String) (m : List (String × Nat))
    (w : String) (hm : ∀ p ∈ m, 1 ≤ p.2) : ∀ p ∈ processToken bank m w, 1 ≤ p.2 := by
  unfold processToken
  by_cases hc : isValidWord w && wbContains bank w
  · rw [if_pos hc]; exact increment_counts_pos m w hm
  · rw [if_neg hc]; exact hm

/-- Consuming any token stream keeps every stored count at least 1. -/
theorem foldl_counts_pos (bank : List String) (tokens : List String) :
    ∀ m, (∀ p ∈ m, 1 ≤ p.2) →
      ∀ p ∈ tokens.foldl (processToken bank) m, 1 ≤ p.2 := by
  induction tokens with
  | nil => intro m hm; simpa using hm
  | cons t rest ih =>
    intro m hm
    simp only [List.foldl_cons]
    exact ih (processToken bank m t) (processToken_counts_pos bank m t hm)

/-- `increment` never decreases any stored count. -/
theorem lookupCount_increment_le (m : List (String × Nat)) (w v : String) :
    lookupCount m w ≤ lookupCount (increment m v) w := by
  induction m with
  | nil => simp [lookupCount, increment]
  | cons q rest ih =>
    by_cases hq : q.1 = v
    · simp only [increment, if_pos hq]
      by_cases hw : q.1 = w
      · simp [lookupCount, hw]
      · simp [lookupCount, hw]
    · simp only [increment, if_neg hq]
      by_cases hw : q.1 = w
      · simp [lookupCount, hw]
      · simpa [lookupCount, hw] using ih

/-- One aggregation step never decreases any stored count. -/
theorem lookupCount_processToken_le (bank : List String) (m : List (String × Nat))
    (w v : String) : lookupCount m w ≤ lookupCount (processToken bank m v) w := by
  unfold processToken
  by_cases hc : isValidWord v && wbContains bank v
  · rw [if_pos hc]; exact lookupCount_increment_le m w v
  · rw [if_neg hc]

/-- Consuming further tokens never decreases any stored count. -/
theorem lookupCount_foldl_le (bank : List String) (extra : List String) :
    ∀ (m : List (String × Nat)) (w : String),
      lookupCount m w ≤ lookupCount (extra.foldl (processToken bank) m) w := by
  induction extra with
  | nil => intro m w; simp
  | cons t rest ih =>
    intro m w
    simp only [List.foldl_cons]
    exact (lookupCount_processToken_le bank m w t).trans
      (ih (processToken bank m t) w)

/-- C9: after every aggregation step of a run the frequency table maps each
present key to a count of at least 1, and no key's count ever decreases as the
run consumes further tokens (the table grows monotonically). -/
theorem frequency_table_invariant (bank : List String) (tokens extra : List String) :
    (∀ p ∈ aggregate bank tokens, 1 ≤ p.2) ∧
      ∀ w, lookupCount (aggregate bank tokens) w ≤
        lookupCount (aggregate bank (tokens ++ extra)) w := by
  constructor
  · exact foldl_counts_pos bank tokens [] (by simp)
  · intro w
    unfold aggregate
    rw [List.foldl_append]
    exact lookupCount_foldl_le bank extra (tokens.foldl (processToken bank) []) w

/-- C4 counterexample: with `initialBackoff = 1`, `maxBackoff = 4`, the
unjittered backoff reaches the maximum at attempt 2, yet at attempt 3 a valid
jitter draw (u = 3/4, factor 1.1) yields a duration of 22/5 exceeding the
configured maximum, and at attempt 4 the draw u = 0 (factor 0.8) yields 16/5,
a decrease: after the maximum is reached the sequence is neither clamped at
the maximum nor non-decreasing. -/
theorem calculateBackoff_not_clamped :
    min ((1 : ℚ) * 2 ^ 2) 4 = 4 ∧
      (0 ≤ (3 : ℚ) / 4 ∧ (3 : ℚ) / 4 ≤ 1 ∧ 0 ≤ (0 : ℚ) ∧ (0 : ℚ) ≤ 1) ∧
      calculateBackoff 1 4 3 (3 / 4) = 22 / 5 ∧
      ¬ calculateBackoff 1 4 3 (3 / 4) ≤ 4 ∧
      calculateBackoff 1 4 4 0 < calculateBackoff 1 4 3 (3 / 4) := by
  norm_num [calculateBackoff]

/-- C4 amended: for any jitter draws u, v in [0, 1], the unjittered backoff
`min(initialBackoff * 2^k, maxBackoff)` is non-decreasing in the attempt and
clamped at the maximum; the returned duration is that value scaled by the
jitter factor, hence at most 6/5 of the configured maximum (it may exceed the
maximum itself by up to 20%); and as long as the unjittered value of the next
attempt has not yet reached the maximum, the returned durations are
non-decreasing for all jitter draws. -/
theorem calculateBackoff_growth (initial maxB : ℚ) (hi : 0 ≤ initial)
    (hm : 0 ≤ maxB) (k : ℕ) (u v : ℚ) (hu0 : 0 ≤ u) (hu1 : u ≤ 1) (hv0 : 0 ≤ v) :
    min (initial * 2 ^ k) maxB ≤ min (initial * 2 ^ (k + 1)) maxB ∧
      min (initial * 2 ^ k) maxB ≤ maxB ∧
      calculateBackoff initial maxB k u ≤ 6 / 5 * maxB ∧
      (initial * 2 ^ (k + 1) ≤ maxB →
        calculateBackoff initial maxB k u ≤ calculateBackoff initial maxB (k + 1) v) := by
  have hpow : (0 : ℚ) ≤ initial * 2 ^ k := by positivity
  have hstep : initial * 2 ^ k ≤ initial * 2 ^ (k + 1) := by
    have h2 : (2 : ℚ) ^ k ≤ 2 ^ (k + 1) := by
      have := pow_le_pow_right₀ (by norm_num : (1 : ℚ) ≤ 2) (Nat.le_succ k)
      exact this
    exact mul_le_mul_of_nonneg_left h2 hi
  have hfu0 : (0 : ℚ) ≤ 4 / 5 + u * (2 / 5) := by nlinarith
  have hfu1 : 4 / 5 + u * (2 / 5) ≤ 6 / 5 := by nlinarith
  have hfv0 : (4 : ℚ) / 5 ≤ 4 / 5 + v * (2 / 5) := by nlinarith
  refine ⟨min_le_min hstep le_rfl, min_le_right _ _, ?_, ?_⟩
  · have h1 : min (initial * 2 ^ k) maxB ≤ maxB := min_le_right _ _
    have h0 : (0 : ℚ) ≤ min (initial * 2 ^ k) maxB := le_min hpow hm
    unfold calculateBackoff
    nlinarith
  · intro hreach
    have hk : initial * 2 ^ k ≤ maxB := hstep.trans hreach
    unfold calculateBackoff
    rw [min_eq_left hk, min_eq_left hreach]
    have hexp : initial * 2 ^ (k + 1) = 2 * (initial * 2 ^ k) := by ring
    nlinarith

/-- Witness for the amended C4 at `initialBackoff = 1`, `maxBackoff = 4`,
attempt 0 and jitter draws 1/2. -/
theorem calculateBackoff_growth_witness :
    (0 ≤ (1 : ℚ) ∧ 0 ≤ (4 : ℚ) ∧ 0 ≤ (1 : ℚ) / 2 ∧ (1 : ℚ) / 2 ≤ 1 ∧
        0 ≤ (1 : ℚ) / 2) ∧
      (min ((1 : ℚ) * 2 ^ 0) 4 ≤ min ((1 : ℚ) * 2 ^ (0 + 1)) 4 ∧
        min ((1 : ℚ) * 2 ^ 0) 4 ≤ 4 ∧
        calculateBackoff 1 4 0 (1 / 2) ≤ 6 / 5 * 4 ∧
        ((1 : ℚ) * 2 ^ (0 + 1) ≤ 4 →
          calculateBackoff 1 4 0 (1 / 2) ≤ calculateBackoff 1 4 (0 + 1) (1 / 2))) :=
  ⟨by norm_num,
    calculateBackoff_growth 1 4 (by norm_num) (by norm_num) 0 (1 / 2) (1 / 2)
      (by norm_num) (by norm_num) (by norm_num)⟩

end WordCountSvc
